import Mathlib

/-
Shallow embedding of system/libhidl MQDescriptor.h (BlissRoms snapshot).

The C++ source is a header-only template MQDescriptor<T, flavor> describing
the shared-memory layout of a fast message queue: a list of GrantorDescriptor
records, an owned native_handle_t, a per-element byte size (quantum, stored
in a uint32_t field) and a flavor flag.  Machine integers are modelled as
Nat; a store into a uint32_t field or a static_cast<uint32_t> takes the value
mod 2^32.  size_t values are modelled as unbounded Nat (the 64-bit platform
admits values at and above 2^32, where the uint32_t truncations are visible).
OS-level handle primitives (native_handle_create / dup / native_handle_close /
native_handle_delete), which the header consumes from cutils/unistd, are
modelled by explicit state passing over a table of open file descriptors.
-/

/-- Modulus of the C++ uint32_t type: stores into uint32_t fields and
static_cast<uint32_t> reduce mod this constant. -/
def UINT32_MOD : Nat := 2 ^ 32

/-- GrantorDescriptor (MQDescriptor.h lines 30-35): flags and fdIndex and
offset are uint32_t, extent is size_t.  offset always holds a value < 2^32
when produced by the constructors modelled below. -/
structure GrantorDescriptor where
  flags : Nat
  fdIndex : Nat
  offset : Nat
  extent : Nat
deriving DecidableEq

/-- Value-initialized GrantorDescriptor, as produced by hidl_vec resize /
std vector value-initialization: all fields zero. -/
instance : Inhabited GrantorDescriptor := ⟨⟨0, 0, 0, 0⟩⟩

/-- enum MQFlavor (MQDescriptor.h lines 37-50). -/
inductive MQFlavor where
  | kSynchronizedReadWrite
  | kUnsynchronizedWrite
deriving DecidableEq

/-- Numeric value of the MQFlavor enumerator (uint32_t underlying type):
kSynchronizedReadWrite = 0x01, kUnsynchronizedWrite = 0x02. -/
def MQFlavor.toUInt32 : MQFlavor → Nat
  | .kSynchronizedReadWrite => 1
  | .kUnsynchronizedWrite => 2

/-- A native_handle_t (cutils): an array of numFds file descriptors followed
by numInts integers.  Modelled as the two lists; numFds and numInts are the
list lengths. -/
structure NativeHandle where
  fds : List Int
  ints : List Int
deriving DecidableEq

/-- MQDescriptor<T, flavor> private state (MQDescriptor.h lines 110-115):
mGrantors is a hidl_vec<GrantorDescriptor>, mHandle a (possibly null)
pointer to an owned native_handle_t, mQuantum and mFlags are uint32_t. -/
structure MQDescriptor where
  mGrantors : List GrantorDescriptor
  mHandle : Option NativeHandle
  mQuantum : Nat
  mFlags : Nat
deriving DecidableEq

/-- enum GrantorType (MQDescriptor.h line 96): canonical grantor position of
the read pointer counter. -/
def READPTRPOS : Nat := 0

/-- Canonical grantor position of the write pointer counter. -/
def WRITEPTRPOS : Nat := 1

/-- Canonical grantor position of the data buffer. -/
def DATAPTRPOS : Nat := 2

/-- Canonical grantor position of the EventFlag word. -/
def EVFLAGWORDPOS : Nat := 3

/-- kMinGrantorCount = DATAPTRPOS + 1 (MQDescriptor.h line 103). -/
def kMinGrantorCount : Nat := DATAPTRPOS + 1

/-- kMinGrantorCountForEvFlagSupport = EVFLAGWORDPOS + 1
(MQDescriptor.h line 109). -/
def kMinGrantorCountForEvFlagSupport : Nat := EVFLAGWORDPOS + 1

/-- The memSize table of the layout-generating constructor (MQDescriptor.h
lines 161-166): sizeof(RingBufferPosition) = sizeof(uint64_t) = 8 for the
read and write pointer counters, bufferSize for the data buffer, and
sizeof(std atomic uint32_t) = 4 for the EventFlag word. -/
def memSize (bufferSize : Nat) : List Nat :=
  [8, 8, bufferSize, 4]

/-- The grantor-building loop of the layout-generating constructor
(MQDescriptor.h lines 173-182): for each entry of the size table, emit a
grantor with flags 0, fdIndex 0, offset = static_cast<uint32_t> of the
running sum of prior extents, extent = the table entry. -/
def buildGrantors : List Nat → Nat → List GrantorDescriptor
  | [], _ => []
  | s :: rest, off =>
      { flags := 0, fdIndex := 0, offset := off % UINT32_MOD, extent := s }
        :: buildGrantors rest (off + s)

/-- The element-by-element copy loop used by the explicit constructor
(MQDescriptor.h lines 145-148) and by getGrantors (lines 232-237): resize
the destination to the source length, then assign each element by index. -/
def copyOut (src : List GrantorDescriptor) : List GrantorDescriptor :=
  (List.range src.length).map (fun i => src.getD i default)

/-- Explicit constructor MQDescriptor(grantors, nhandle, size)
(MQDescriptor.h lines 137-149): copies the grantor list element by element,
stores the handle pointer, stores size into the uint32_t mQuantum field and
the flavor into mFlags. -/
def MQDescriptor.mkExplicit (flavor : MQFlavor)
    (grantors : List GrantorDescriptor) (nhandle : Option NativeHandle)
    (size : Nat) : MQDescriptor :=
  { mGrantors := copyOut grantors
    mHandle := nhandle
    mQuantum := size % UINT32_MOD
    mFlags := flavor.toUInt32 }

/-- Layout-generating constructor
MQDescriptor(bufferSize, nHandle, messageSize, configureEventFlag)
(MQDescriptor.h lines 151-183): resizes mGrantors to 4 when
configureEventFlag else 3, then runs the grantor-building loop over the
corresponding prefix of the memSize table starting at offset 0. -/
def MQDescriptor.mkLayout (flavor : MQFlavor) (bufferSize : Nat)
    (nHandle : Option NativeHandle) (messageSize : Nat)
    (configureEventFlag : Bool) : MQDescriptor :=
  { mGrantors :=
      buildGrantors
        ((memSize bufferSize).take
          (if configureEventFlag then kMinGrantorCountForEvFlagSupport
           else kMinGrantorCount)) 0
    mHandle := nHandle
    mQuantum := messageSize % UINT32_MOD
    mFlags := flavor.toUInt32 }

/-- Default constructor (MQDescriptor.h lines 205-209): delegates to the
explicit constructor with an empty grantor vector, a null handle and size 0. -/
def MQDescriptor.mkDefault (flavor : MQFlavor) : MQDescriptor :=
  MQDescriptor.mkExplicit flavor [] none 0

/-- getSize (MQDescriptor.h lines 219-222) returns
mGrantors[DATAPTRPOS].extent with no bounds check; in C++ the out-of-bounds
read is undefined.  The unchecked indexing is modelled by the Option-valued
lookup: some extent exactly when DATAPTRPOS is in bounds. -/
def MQDescriptor.getSize? (d : MQDescriptor) : Option Nat :=
  (d.mGrantors[DATAPTRPOS]?).map GrantorDescriptor.extent

/-- getQuantum (MQDescriptor.h line 225): returns the stored uint32_t
mQuantum field. -/
def MQDescriptor.getQuantum (d : MQDescriptor) : Nat :=
  d.mQuantum

/-- getFlags (MQDescriptor.h line 228) returns int32_t(mFlags): the uint32_t
value reinterpreted as a signed 32-bit integer. -/
def MQDescriptor.getFlags (d : MQDescriptor) : Int :=
  if d.mFlags < 2 ^ 31 then (d.mFlags : Int) else (d.mFlags : Int) - 2 ^ 32

/-- countGrantors (MQDescriptor.h line 74): mGrantors.size(). -/
def MQDescriptor.countGrantors (d : MQDescriptor) : Nat :=
  d.mGrantors.length

/-- isHandleValid (MQDescriptor.h line 73): mHandle != nullptr. -/
def MQDescriptor.isHandleValid (d : MQDescriptor) : Bool :=
  d.mHandle.isSome

/-- getGrantors (MQDescriptor.h lines 230-238): allocates a fresh std vector
of the same size and copies every grantor by index, returning the copy by
value. -/
def MQDescriptor.getGrantors (d : MQDescriptor) : List GrantorDescriptor :=
  copyOut d.mGrantors

/-- A write of grantor g at index i through the mutable accessor
grantors() (MQDescriptor.h lines 82-84), in state-passing form: the
descriptor with mGrantors updated at i. -/
def MQDescriptor.setGrantor (d : MQDescriptor) (i : Nat)
    (g : GrantorDescriptor) : MQDescriptor :=
  { d with mGrantors := d.mGrantors.set i g }

/-- Modelled from the spec (section 6): the platform handle primitives are
external to this repository.  The OS state is the table of currently open
file descriptors together with its capacity. -/
structure OsState where
  openFds : List Int
  limit : Nat
deriving DecidableEq

/-- Modelled from the spec: POSIX dup allocates the lowest-numbered file
descriptor not currently open.  The search over 0..n for a list of n open
descriptors always finds a free one. -/
def lowestFree (fds : List Int) : Int :=
  match (List.range (fds.length + 1)).find?
      (fun n : Nat => decide (((n : Int)) ∉ fds)) with
  | some n => (n : Int)
  | none => 0

/-- Modelled from the spec: dup(oldfd) duplicates an open descriptor into
the lowest free slot and returns it, or returns -1 and leaves the table
unchanged when oldfd is not open or the descriptor table is exhausted. -/
def OsState.dup (σ : OsState) (oldfd : Int) : Int × OsState :=
  if oldfd ∈ σ.openFds ∧ σ.openFds.length < σ.limit then
    let newfd := lowestFree σ.openFds
    (newfd, { σ with openFds := newfd :: σ.openFds })
  else
    (-1, σ)

/-- The fd duplication loop of the copy constructor (MQDescriptor.h lines
195-197): mHandle->data[i] = dup(other.mHandle->data[i]) for each source fd
in order.  The source does not check the value dup returns. -/
def dupFds (σ : OsState) : List Int → List Int × OsState
  | [] => ([], σ)
  | fd :: rest =>
      let r := σ.dup fd
      let rr := dupFds r.2 rest
      (r.1 :: rr.1, rr.2)

/-- Copy constructor MQDescriptor(const MQDescriptor&) (MQDescriptor.h lines
185-203): value-copies mGrantors, mQuantum and mFlags; when the source
handle is non-null, creates a handle sized numFds/numInts, duplicates every
source fd in order with dup (unchecked), and memcpy-copies the numInts
integer payload. -/
def MQDescriptor.copyCtor (other : MQDescriptor) (σ : OsState) :
    MQDescriptor × OsState :=
  match other.mHandle with
  | none =>
      ({ mGrantors := other.mGrantors, mHandle := none,
         mQuantum := other.mQuantum, mFlags := other.mFlags }, σ)
  | some h =>
      let r := dupFds σ h.fds
      ({ mGrantors := other.mGrantors,
         mHandle := some { fds := r.1, ints := h.ints },
         mQuantum := other.mQuantum, mFlags := other.mFlags }, r.2)

/-- Destructor (MQDescriptor.h lines 211-217): when mHandle is non-null,
native_handle_close closes every fd held by the handle and
native_handle_delete frees it; with a null handle the destructor is a
no-op.  In the OS-state model, closing removes the handle's fds from the
open table. -/
def MQDescriptor.destroy (d : MQDescriptor) (σ : OsState) : OsState :=
  match d.mHandle with
  | none => σ
  | some h =>
      { σ with openFds := σ.openFds.filter (fun fd => decide (fd ∉ h.fds)) }

/-- Searching 0..n over a table of n open descriptors always finds a free
one: the descriptor lowestFree returns is not open. -/
theorem lowestFree_not_mem (fds : List Int) : lowestFree fds ∉ fds := by
  cases hf : (List.range (fds.length + 1)).find?
      (fun n : Nat => decide (((n : Int)) ∉ fds)) with
  | none =>
      exfalso
      have hall : ∀ n ∈ List.range (fds.length + 1), ((n : Int)) ∈ fds := by
        intro n hn
        have h2 := List.find?_eq_none.mp hf n hn
        simpa using h2
      have hsub : (Finset.range (fds.length + 1)).image
          (fun n : Nat => (n : Int)) ⊆ fds.toFinset := by
        intro x hx
        simp only [Finset.mem_image, Finset.mem_range] at hx
        obtain ⟨n, hn, rfl⟩ := hx
        exact List.mem_toFinset.mpr (hall n (List.mem_range.mpr hn))
      have hcard1 : ((Finset.range (fds.length + 1)).image
          (fun n : Nat => (n : Int))).card = fds.length + 1 := by
        rw [Finset.card_image_of_injective _ Nat.cast_injective,
          Finset.card_range]
      have hcard2 := Finset.card_le_card hsub
      have hcard3 := List.toFinset_card_le fds
      omega
  | some n =>
      have h1 : lowestFree fds = (n : Int) := by
        unfold lowestFree
        rw [hf]
      have h2 := List.find?_some hf
      rw [h1]
      simpa using h2

/-- The duplication loop, run with every source fd open and enough table
capacity: it produces as many fds as the source has, all of them fresh
(outside the initial open table) and pairwise distinct, and the final table
is the new fds pushed onto the initial one with the limit unchanged. -/
theorem dupFds_spec (fds : List Int) (σ : OsState)
    (hsub : ∀ f ∈ fds, f ∈ σ.openFds)
    (hcap : σ.openFds.length + fds.length ≤ σ.limit) :
    (dupFds σ fds).1.length = fds.length ∧
    (∀ f ∈ (dupFds σ fds).1, f ∉ σ.openFds) ∧
    (dupFds σ fds).1.Nodup ∧
    (dupFds σ fds).2.openFds = (dupFds σ fds).1.reverse ++ σ.openFds ∧
    (dupFds σ fds).2.limit = σ.limit := by
  induction fds generalizing σ with
  | nil => simp [dupFds]
  | cons fd rest ih =>
      have hmem : fd ∈ σ.openFds := hsub fd (by simp)
      have hlt : σ.openFds.length < σ.limit := by
        simp only [List.length_cons] at hcap; omega
      have hdup : σ.dup fd = (lowestFree σ.openFds,
          { σ with openFds := lowestFree σ.openFds :: σ.openFds }) := by
        simp [OsState.dup, hmem, hlt]
      have hsub1 : ∀ f ∈ rest,
          f ∈ (lowestFree σ.openFds :: σ.openFds) := by
        intro f hf
        exact List.mem_cons_of_mem _ (hsub f (List.mem_cons_of_mem _ hf))
      have hcap1 : (lowestFree σ.openFds :: σ.openFds).length + rest.length
          ≤ σ.limit := by
        simp only [List.length_cons, List.length_cons] at hcap ⊢; omega
      obtain ⟨ihlen, ihfresh, ihnodup, ihstate, ihlim⟩ :=
        ih { σ with openFds := lowestFree σ.openFds :: σ.openFds } hsub1 hcap1
      have hdef : dupFds σ (fd :: rest) =
          (lowestFree σ.openFds ::
            (dupFds { σ with openFds := lowestFree σ.openFds :: σ.openFds }
              rest).1,
           (dupFds { σ with openFds := lowestFree σ.openFds :: σ.openFds }
              rest).2) := by
        simp only [dupFds, hdup]
      rw [hdef]
      refine ⟨by simp [ihlen], ?_, ?_, ?_, by simpa using ihlim⟩
      · intro f hf
        rcases List.mem_cons.mp hf with rfl | hf2
        · exact lowestFree_not_mem σ.openFds
        · exact fun hmem2 => (ihfresh f hf2) (List.mem_cons_of_mem _ hmem2)
      · refine List.nodup_cons.mpr ⟨?_, ihnodup⟩
        intro hf0mem
        exact (ihfresh _ hf0mem) (List.mem_cons_self _ _)
      · simp only
        rw [ihstate, List.reverse_cons, List.append_assoc]
        rfl

/-- Claim C3 (confirmed): copy construction, run with every source fd open
and enough descriptor-table capacity, yields a handle with as many freshly
duplicated fds as the source has, each distinct from every source fd and
pairwise distinct, an identical integer payload, and value-copied grantors,
quantum and flags. -/
theorem C3_copy_deep_dup (σ : OsState) (other : MQDescriptor)
    (h : NativeHandle) (hh : other.mHandle = some h)
    (hopen : ∀ f ∈ h.fds, f ∈ σ.openFds)
    (hcap : σ.openFds.length + h.fds.length ≤ σ.limit) :
    ∃ hn : NativeHandle,
      (MQDescriptor.copyCtor other σ).1.mHandle = some hn ∧
      hn.fds.length = h.fds.length ∧
      (∀ f ∈ hn.fds, f ∉ h.fds) ∧
      hn.fds.Nodup ∧
      hn.ints = h.ints ∧
      (MQDescriptor.copyCtor other σ).1.mGrantors = other.mGrantors ∧
      (MQDescriptor.copyCtor other σ).1.mQuantum = other.mQuantum ∧
      (MQDescriptor.copyCtor other σ).1.mFlags = other.mFlags := by
  obtain ⟨hlen, hfresh, hnodup, -, -⟩ := dupFds_spec h.fds σ hopen hcap
  refine ⟨⟨(dupFds σ h.fds).1, h.ints⟩, ?_, hlen, ?_, hnodup, rfl, ?_, ?_, ?_⟩
  · simp [MQDescriptor.copyCtor, hh]
  · intro f hf
    exact fun hmem => (hfresh f hf) (hopen f hmem)
  · simp [MQDescriptor.copyCtor, hh]
  · simp [MQDescriptor.copyCtor, hh]
  · simp [MQDescriptor.copyCtor, hh]

theorem C3_copy_deep_dup_witness :
    ∃ hn : NativeHandle,
      (MQDescriptor.copyCtor ⟨[], some ⟨[5], [7]⟩, 9, 1⟩
          ⟨[5], 3⟩).1.mHandle = some hn ∧
      hn.fds.length = (NativeHandle.mk [5] [7]).fds.length ∧
      (∀ f ∈ hn.fds, f ∉ (NativeHandle.mk [5] [7]).fds) ∧
      hn.fds.Nodup ∧
      hn.ints = (NativeHandle.mk [5] [7]).ints ∧
      (MQDescriptor.copyCtor ⟨[], some ⟨[5], [7]⟩, 9, 1⟩
          ⟨[5], 3⟩).1.mGrantors
        = (MQDescriptor.mk [] (some ⟨[5], [7]⟩) 9 1).mGrantors ∧
      (MQDescriptor.copyCtor ⟨[], some ⟨[5], [7]⟩, 9, 1⟩
          ⟨[5], 3⟩).1.mQuantum
        = (MQDescriptor.mk [] (some ⟨[5], [7]⟩) 9 1).mQuantum ∧
      (MQDescriptor.copyCtor ⟨[], some ⟨[5], [7]⟩, 9, 1⟩
          ⟨[5], 3⟩).1.mFlags
        = (MQDescriptor.mk [] (some ⟨[5], [7]⟩) 9 1).mFlags :=
  C3_copy_deep_dup ⟨[5], 3⟩ ⟨[], some ⟨[5], [7]⟩, 9, 1⟩ ⟨[5], [7]⟩ rfl
    (by decide) (by decide)

/-- Claim C4 (code bug): with the descriptor table exhausted (one open fd,
limit 1), dup fails and returns -1, yet the copy constructor completes and
yields a descriptor whose handle holds the failure sentinel -1 in place of
a duplicated fd — it does not fail fatally as the spec requires. -/
theorem C4_dup_failure_completes :
    (MQDescriptor.copyCtor ⟨[], some ⟨[0], []⟩, 0, 1⟩ ⟨[0], 1⟩).1
      = ⟨[], some ⟨[-1], []⟩, 0, 1⟩ := by decide

/-- Claim C8 (confirmed): destroying the copy-constructed duplicate removes
only the duplicate's own fds from the open table, so every source fd is
still open afterwards; and destroying any descriptor with a null handle
leaves the OS state unchanged. -/
theorem C8_destroy_local (σ : OsState) (src : MQDescriptor)
    (h : NativeHandle) (hh : src.mHandle = some h)
    (hopen : ∀ f ∈ h.fds, f ∈ σ.openFds)
    (hcap : σ.openFds.length + h.fds.length ≤ σ.limit) :
    (∀ f ∈ h.fds,
        f ∈ (MQDescriptor.destroy (MQDescriptor.copyCtor src σ).1
              (MQDescriptor.copyCtor src σ).2).openFds) ∧
    (∀ d : MQDescriptor, d.mHandle = none →
        MQDescriptor.destroy d σ = σ) := by
  obtain ⟨-, hfresh, -, hstate, -⟩ := dupFds_spec h.fds σ hopen hcap
  constructor
  · intro f hf
    have hfopen : f ∈ σ.openFds := hopen f hf
    have hfnot : f ∉ (dupFds σ h.fds).1 :=
      fun hmem => (hfresh f hmem) hfopen
    have hcopy : MQDescriptor.copyCtor src σ =
        ({ mGrantors := src.mGrantors,
           mHandle := some { fds := (dupFds σ h.fds).1, ints := h.ints },
           mQuantum := src.mQuantum, mFlags := src.mFlags },
         (dupFds σ h.fds).2) := by
      simp [MQDescriptor.copyCtor, hh]
    rw [hcopy]
    simp only [MQDescriptor.destroy]
    refine List.mem_filter.mpr ⟨?_, by simpa using hfnot⟩
    rw [hstate]
    exact List.mem_append_right _ hfopen
  · intro d hd
    simp [MQDescriptor.destroy, hd]

theorem C8_destroy_local_witness :
    (∀ f ∈ (NativeHandle.mk [5] []).fds,
        f ∈ (MQDescriptor.destroy
              (MQDescriptor.copyCtor ⟨[], some ⟨[5], []⟩, 0, 1⟩
                ⟨[5], 3⟩).1
              (MQDescriptor.copyCtor ⟨[], some ⟨[5], []⟩, 0, 1⟩
                ⟨[5], 3⟩).2).openFds) ∧
    (∀ d : MQDescriptor, d.mHandle = none →
        MQDescriptor.destroy d ⟨[5], 3⟩ = ⟨[5], 3⟩) :=
  C8_destroy_local ⟨[5], 3⟩ ⟨[], some ⟨[5], []⟩, 0, 1⟩ ⟨[5], []⟩ rfl
    (by decide) (by decide)

/-- The resize-then-assign copy loop reproduces its source list. -/
theorem copyOut_eq (l : List GrantorDescriptor) : copyOut l = l := by
  apply List.ext_getElem
  · simp [copyOut]
  · intro i h1 h2
    simp only [copyOut, List.getElem_map, List.getElem_range]
    rw [List.getD_eq_getElem _ _ h2]

/-- The grantor-building loop emits one grantor per size-table entry. -/
theorem buildGrantors_length (sizes : List Nat) (off : Nat) :
    (buildGrantors sizes off).length = sizes.length := by
  induction sizes generalizing off with
  | nil => rfl
  | cons s rest ih => simp [buildGrantors, ih]

/-- Adjacent grantors emitted by the building loop satisfy the contiguity
equation modulo 2^32: the next stored offset is the previous stored offset
plus the previous extent, reduced by the uint32_t cast. -/
theorem buildGrantors_contig (sizes : List Nat) (off i : Nat)
    (h : i + 1 < sizes.length) :
    ((buildGrantors sizes off).getD (i + 1) default).offset
      = (((buildGrantors sizes off).getD i default).offset
          + ((buildGrantors sizes off).getD i default).extent)
        % UINT32_MOD := by
  induction sizes generalizing off i with
  | nil => simp at h
  | cons s rest ih =>
      cases i with
      | zero =>
          cases rest with
          | nil => simp at h
          | cons s2 rest2 =>
              simp only [buildGrantors, List.getD_cons_succ,
                List.getD_cons_zero]
              rw [Nat.mod_add_mod]
      | succ j =>
          have h2 : j + 1 < rest.length := by
            simpa using h
          simpa only [buildGrantors, List.getD_cons_succ]
            using ih (off + s) j h2

/-- Claim C1 as frozen is refuted at bufferSize 1, messageSize 2^32: the
uint32_t mQuantum field truncates the size_t messageSize, so getQuantum
returns 0, not 2^32. -/
theorem C1_claim_cex :
    ¬ ((MQDescriptor.mkLayout .kSynchronizedReadWrite 1 none (2 ^ 32)
          false).getSize? = some 1 ∧
       (MQDescriptor.mkLayout .kSynchronizedReadWrite 1 none (2 ^ 32)
          false).getQuantum = 2 ^ 32 ∧
       (MQDescriptor.mkLayout .kSynchronizedReadWrite 1 none (2 ^ 32)
          false).countGrantors = 3 ∧
       ((MQDescriptor.mkLayout .kSynchronizedReadWrite 1 none (2 ^ 32)
          false).mGrantors.map GrantorDescriptor.offset) = [0, 8, 16]) := by
  decide

/-- Claim C1 (corrected): for any flavor, handle, bufferSize > 0 and
messageSize > 0, the layout-generating constructor without event flag gives
size bufferSize, quantum messageSize mod 2^32 (the uint32_t store), three
grantors, and offsets 0, 8, 16 in canonical order. -/
theorem C1_layout_no_evflag (flavor : MQFlavor)
    (bufferSize messageSize : Nat) (nh : Option NativeHandle)
    (hb : 0 < bufferSize) (hm : 0 < messageSize) :
    (MQDescriptor.mkLayout flavor bufferSize nh messageSize
        false).getSize? = some bufferSize ∧
    (MQDescriptor.mkLayout flavor bufferSize nh messageSize
        false).getQuantum = messageSize % UINT32_MOD ∧
    (MQDescriptor.mkLayout flavor bufferSize nh messageSize
        false).countGrantors = 3 ∧
    ((MQDescriptor.mkLayout flavor bufferSize nh messageSize
        false).mGrantors.map GrantorDescriptor.offset) = [0, 8, 16] := by
  refine ⟨?_, rfl, ?_, ?_⟩ <;>
    simp [MQDescriptor.mkLayout, MQDescriptor.getSize?,
      MQDescriptor.countGrantors, memSize, kMinGrantorCount, DATAPTRPOS,
      buildGrantors, UINT32_MOD, Nat.mod_eq_of_lt]

theorem C1_layout_no_evflag_witness :
    (MQDescriptor.mkLayout .kSynchronizedReadWrite 4 none 2
        false).getSize? = some 4 ∧
    (MQDescriptor.mkLayout .kSynchronizedReadWrite 4 none 2
        false).getQuantum = 2 % UINT32_MOD ∧
    (MQDescriptor.mkLayout .kSynchronizedReadWrite 4 none 2
        false).countGrantors = 3 ∧
    ((MQDescriptor.mkLayout .kSynchronizedReadWrite 4 none 2
        false).mGrantors.map GrantorDescriptor.offset) = [0, 8, 16] :=
  C1_layout_no_evflag .kSynchronizedReadWrite 4 2 none (by decide)
    (by decide)

/-- Claim C2 as frozen is refuted at bufferSize 2^32: the uint32_t cast of
the running offset stores 16 for the fourth grantor, not 16 + 2^32. -/
theorem C2_claim_cex :
    ¬ ((MQDescriptor.mkLayout .kSynchronizedReadWrite (2 ^ 32) none 1
          true).countGrantors = 4 ∧
       ((MQDescriptor.mkLayout .kSynchronizedReadWrite (2 ^ 32) none 1
          true).mGrantors.getD 3 default).offset = 16 + 2 ^ 32 ∧
       ((MQDescriptor.mkLayout .kSynchronizedReadWrite (2 ^ 32) none 1
          true).mGrantors.getD 3 default).extent = 4) := by
  decide

/-- Claim C2 (corrected): with event flag requested, the constructor emits
four grantors; the fourth (canonical position EVFLAGWORDPOS) has stored
offset (16 + bufferSize) mod 2^32 (the uint32_t cast of the running sum)
and extent 4. -/
theorem C2_layout_evflag (flavor : MQFlavor)
    (bufferSize messageSize : Nat) (nh : Option NativeHandle)
    (hb : 0 < bufferSize) (hm : 0 < messageSize) :
    (MQDescriptor.mkLayout flavor bufferSize nh messageSize
        true).countGrantors = 4 ∧
    ((MQDescriptor.mkLayout flavor bufferSize nh messageSize
        true).mGrantors.getD EVFLAGWORDPOS default).offset
      = (16 + bufferSize) % UINT32_MOD ∧
    ((MQDescriptor.mkLayout flavor bufferSize nh messageSize
        true).mGrantors.getD EVFLAGWORDPOS default).extent = 4 := by
  refine ⟨?_, ?_, ?_⟩ <;>
    simp [MQDescriptor.mkLayout, MQDescriptor.countGrantors, memSize,
      kMinGrantorCountForEvFlagSupport, EVFLAGWORDPOS, buildGrantors,
      Nat.add_comm]

theorem C2_layout_evflag_witness :
    (MQDescriptor.mkLayout .kSynchronizedReadWrite 4 none 2
        true).countGrantors = 4 ∧
    ((MQDescriptor.mkLayout .kSynchronizedReadWrite 4 none 2
        true).mGrantors.getD EVFLAGWORDPOS default).offset
      = (16 + 4) % UINT32_MOD ∧
    ((MQDescriptor.mkLayout .kSynchronizedReadWrite 4 none 2
        true).mGrantors.getD EVFLAGWORDPOS default).extent = 4 :=
  C2_layout_evflag .kSynchronizedReadWrite 4 2 none (by decide) (by decide)

/-- Claim C5 as frozen is refuted at bufferSize 2^32 with event flag: at
index 2 the stored fourth offset is 16 (after the uint32_t cast), while the
third stored offset plus the third extent is 16 + 2^32. -/
theorem C5_claim_cex :
    ¬ (∀ i : Nat,
        i + 1 < (MQDescriptor.mkLayout .kSynchronizedReadWrite (2 ^ 32)
            none 1 true).countGrantors →
        ((MQDescriptor.mkLayout .kSynchronizedReadWrite (2 ^ 32) none 1
            true).mGrantors.getD (i + 1) default).offset
          = ((MQDescriptor.mkLayout .kSynchronizedReadWrite (2 ^ 32) none 1
              true).mGrantors.getD i default).offset
            + ((MQDescriptor.mkLayout .kSynchronizedReadWrite (2 ^ 32)
                none 1 true).mGrantors.getD i default).extent) :=
  fun h => absurd (h 2 (by decide)) (by decide)

/-- Claim C5 (corrected): in every descriptor built by the layout-generating
constructor, for both event-flag settings, adjacent grantors are contiguous
modulo the uint32_t offset cast: the stored offset at i+1 equals (stored
offset at i + extent at i) mod 2^32. -/
theorem C5_layout_contiguous (flavor : MQFlavor)
    (bufferSize messageSize : Nat) (nh : Option NativeHandle)
    (cfg : Bool) (i : Nat)
    (hi : i + 1 < (MQDescriptor.mkLayout flavor bufferSize nh messageSize
        cfg).countGrantors) :
    ((MQDescriptor.mkLayout flavor bufferSize nh messageSize
        cfg).mGrantors.getD (i + 1) default).offset
      = (((MQDescriptor.mkLayout flavor bufferSize nh messageSize
            cfg).mGrantors.getD i default).offset
          + ((MQDescriptor.mkLayout flavor bufferSize nh messageSize
              cfg).mGrantors.getD i default).extent) % UINT32_MOD := by
  apply buildGrantors_contig
  have hlen := buildGrantors_length
    ((memSize bufferSize).take
      (if cfg then kMinGrantorCountForEvFlagSupport else kMinGrantorCount)) 0
  simpa [MQDescriptor.mkLayout, MQDescriptor.countGrantors, hlen] using hi

theorem C5_layout_contiguous_witness :
    ((MQDescriptor.mkLayout .kSynchronizedReadWrite 4 none 2
        true).mGrantors.getD (2 + 1) default).offset
      = (((MQDescriptor.mkLayout .kSynchronizedReadWrite 4 none 2
            true).mGrantors.getD 2 default).offset
          + ((MQDescriptor.mkLayout .kSynchronizedReadWrite 4 none 2
              true).mGrantors.getD 2 default).extent) % UINT32_MOD :=
  C5_layout_contiguous .kSynchronizedReadWrite 4 2 none true 2 (by decide)

/-- Claim C6 (confirmed): rebuilding a descriptor of the same flavor with
the explicit constructor from getGrantors, any handle and getQuantum of a
descriptor D with at least kMinGrantorCount grantors preserves getSize,
getQuantum and getFlags.  The hypotheses mQuantum < 2^32 and mFlags =
flavor express that D's uint32_t fields hold what the C++ type and the
shared-flavor premise guarantee. -/
theorem C6_explicit_roundtrip (flavor : MQFlavor) (D : MQDescriptor)
    (nh : Option NativeHandle)
    (hcount : kMinGrantorCount ≤ D.countGrantors)
    (hq : D.mQuantum < UINT32_MOD)
    (hf : D.mFlags = flavor.toUInt32) :
    (MQDescriptor.mkExplicit flavor D.getGrantors nh
        D.getQuantum).getSize? = D.getSize? ∧
    (MQDescriptor.mkExplicit flavor D.getGrantors nh
        D.getQuantum).getQuantum = D.getQuantum ∧
    (MQDescriptor.mkExplicit flavor D.getGrantors nh
        D.getQuantum).getFlags = D.getFlags := by
  have hg : copyOut (MQDescriptor.getGrantors D) = D.mGrantors := by
    rw [MQDescriptor.getGrantors, copyOut_eq, copyOut_eq]
  refine ⟨?_, ?_, ?_⟩
  · simp [MQDescriptor.mkExplicit, MQDescriptor.getSize?, hg]
  · simp [MQDescriptor.mkExplicit, MQDescriptor.getQuantum,
      Nat.mod_eq_of_lt hq]
  · simp [MQDescriptor.mkExplicit, MQDescriptor.getFlags, hf]

theorem C6_explicit_roundtrip_witness :
    (MQDescriptor.mkExplicit .kSynchronizedReadWrite
        (MQDescriptor.mkLayout .kSynchronizedReadWrite 4 none 2
            false).getGrantors none
        (MQDescriptor.mkLayout .kSynchronizedReadWrite 4 none 2
            false).getQuantum).getSize?
      = (MQDescriptor.mkLayout .kSynchronizedReadWrite 4 none 2
          false).getSize? ∧
    (MQDescriptor.mkExplicit .kSynchronizedReadWrite
        (MQDescriptor.mkLayout .kSynchronizedReadWrite 4 none 2
            false).getGrantors none
        (MQDescriptor.mkLayout .kSynchronizedReadWrite 4 none 2
            false).getQuantum).getQuantum
      = (MQDescriptor.mkLayout .kSynchronizedReadWrite 4 none 2
          false).getQuantum ∧
    (MQDescriptor.mkExplicit .kSynchronizedReadWrite
        (MQDescriptor.mkLayout .kSynchronizedReadWrite 4 none 2
            false).getGrantors none
        (MQDescriptor.mkLayout .kSynchronizedReadWrite 4 none 2
            false).getQuantum).getFlags
      = (MQDescriptor.mkLayout .kSynchronizedReadWrite 4 none 2
          false).getFlags :=
  C6_explicit_roundtrip .kSynchronizedReadWrite
    (MQDescriptor.mkLayout .kSynchronizedReadWrite 4 none 2 false) none
    (by decide) (by decide) (by decide)

/-- Claim C7 as frozen is refuted at size 2^32: the uint32_t mQuantum field
stores 0, so getQuantum does not return the quantum argument verbatim. -/
theorem C7_claim_cex :
    ¬ ((MQDescriptor.mkExplicit .kSynchronizedReadWrite [] none
          (2 ^ 32)).getGrantors = [] ∧
       (MQDescriptor.mkExplicit .kSynchronizedReadWrite [] none
          (2 ^ 32)).getQuantum = 2 ^ 32 ∧
       (MQDescriptor.mkExplicit .kSynchronizedReadWrite [] none
          (2 ^ 32)).getFlags = MQFlavor.toUInt32 .kSynchronizedReadWrite) :=
  by decide

/-- Claim C7 (corrected): the explicit constructor transcribes its inputs,
except that the quantum passes through the uint32_t mQuantum store:
getGrantors returns the given list, getQuantum returns q mod 2^32, and
getFlags returns the flavor value. -/
theorem C7_explicit_transcribes (flavor : MQFlavor)
    (g : List GrantorDescriptor) (nh : Option NativeHandle) (q : Nat) :
    (MQDescriptor.mkExplicit flavor g nh q).getGrantors = g ∧
    (MQDescriptor.mkExplicit flavor g nh q).getQuantum
      = q % UINT32_MOD ∧
    (MQDescriptor.mkExplicit flavor g nh q).getFlags
      = (flavor.toUInt32 : Int) := by
  refine ⟨?_, rfl, ?_⟩
  · rw [MQDescriptor.getGrantors]
    show copyOut (copyOut g) = g
    rw [copyOut_eq, copyOut_eq]
  · cases flavor <;> simp [MQDescriptor.mkExplicit, MQDescriptor.getFlags,
      MQFlavor.toUInt32]

/-- Claim C9 (confirmed): getGrantors is a structural snapshot.  In the
state-passing model the snapshot taken from d is the value of d.mGrantors
itself, fixed once taken; a write through the mutable grantors() accessor
produces a new descriptor state whose fresh getGrantors shows the update,
while the previously returned vector is untouched. -/
theorem C9_snapshot (d : MQDescriptor) (i : Nat) (g : GrantorDescriptor) :
    d.getGrantors = d.mGrantors ∧
    (d.setGrantor i g).getGrantors = d.mGrantors.set i g := by
  constructor
  · rw [MQDescriptor.getGrantors, copyOut_eq]
  · rw [MQDescriptor.getGrantors, MQDescriptor.setGrantor, copyOut_eq]

/-- Claim C10 (confirmed): the unchecked grantor access of getSize is in
bounds exactly when the descriptor has at least kMinGrantorCount grantors;
for a default-constructed descriptor, and for any explicitly constructed
descriptor with fewer than kMinGrantorCount grantors, the DATAPTRPOS
access is out of bounds. -/
theorem C10_getSize_unchecked (flavor : MQFlavor) :
    (∀ d : MQDescriptor,
        (d.getSize?).isSome ↔ kMinGrantorCount ≤ d.countGrantors) ∧
    (MQDescriptor.mkDefault flavor).getSize? = none ∧
    (∀ (g : List GrantorDescriptor) (nh : Option NativeHandle) (q : Nat),
        g.length < kMinGrantorCount →
        (MQDescriptor.mkExplicit flavor g nh q).getSize? = none) := by
  have hiff : ∀ d : MQDescriptor,
      (d.getSize?).isSome ↔ kMinGrantorCount ≤ d.countGrantors := by
    intro d
    rw [MQDescriptor.getSize?, MQDescriptor.countGrantors]
    cases hlt : d.mGrantors[DATAPTRPOS]? with
    | none =>
        have := List.getElem?_eq_none_iff.mp hlt
        simp only [hlt, Option.map_none', Option.isSome_none]
        simp only [DATAPTRPOS] at this
        simp [kMinGrantorCount, DATAPTRPOS]
        omega
    | some gr =>
        have := List.getElem?_eq_some_iff.mp hlt
        obtain ⟨hb, -⟩ := this
        simp only [hlt, Option.map_some', Option.isSome_some]
        simp only [DATAPTRPOS] at hb
        simp [kMinGrantorCount, DATAPTRPOS]
        omega
  refine ⟨hiff, ?_, ?_⟩
  · simp [MQDescriptor.mkDefault, MQDescriptor.mkExplicit,
      MQDescriptor.getSize?, copyOut, DATAPTRPOS]
  · intro g nh q hg
    have h2 := (hiff (MQDescriptor.mkExplicit flavor g nh q)).not
    have h3 : ¬ kMinGrantorCount ≤
        (MQDescriptor.mkExplicit flavor g nh q).countGrantors := by
      have hlen : (MQDescriptor.mkExplicit flavor g nh q).countGrantors
          = g.length := by
        simp [MQDescriptor.mkExplicit, MQDescriptor.countGrantors,
          copyOut_eq]
      omega
    have h4 := h2.mpr h3
    cases hs : (MQDescriptor.mkExplicit flavor g nh q).getSize? with
    | none => rfl
    | some v => exact absurd (by simp [hs]) h4

theorem C10_getSize_unchecked_witness :
    (MQDescriptor.mkExplicit .kSynchronizedReadWrite [] none 0).getSize?
      = none :=
  (C10_getSize_unchecked .kSynchronizedReadWrite).2.2 [] none 0 (by decide)

